import Mathlib

/-!
Verification of the mp3-duration scanner (`src/lib.rs`) against its
natural-language specification.

The Rust code is shallowly embedded: the byte source is a `List Nat`
(every byte `< 256` in actual use), `std::time::Duration` becomes a
seconds/nanoseconds pair of naturals, and machine-integer arithmetic is
natural-number arithmetic with an explicit `% 2^64` / `% 2^32` at the
places where the Rust `u64`/`u32` operations can wrap.  Failed reads are
modelled transactionally: a read that hits end-of-stream consumes
nothing (the Rust code returns immediately after every failed read, so
this is observationally equivalent for the scan result).

The scan loop of `from_read` is embedded as a `step` function (one
iteration of the `loop { ... }` body) driven by a fuel-indexed `loop`;
`from_read` supplies `input.length + 1` fuel, which is proven sufficient
(`step_next_length_lt`, `loop_fuel_congr`).
-/

/-- Model of `std::time::Duration`: whole seconds plus a nanosecond
remainder, kept normalised (`nanos < 10^9`) by the smart constructors,
exactly as Rust's `Duration` stores and normalises it. -/
structure Duration where
  secs : Nat
  nanos : Nat
deriving DecidableEq, Repr

/-- Model of `Duration::new`, which carries surplus nanoseconds into the
seconds field. -/
def Duration.new (s n : Nat) : Duration :=
  ⟨s + n / 1000000000, n % 1000000000⟩

/-- Model of `Duration + Duration` (the `duration += ...` in the scan loop). -/
def Duration.add (a b : Duration) : Duration :=
  ⟨a.secs + b.secs + (a.nanos + b.nanos) / 1000000000,
   (a.nanos + b.nanos) % 1000000000⟩

instance : Add Duration := ⟨Duration.add⟩

/-- Model of `Duration::from_secs(0)`, the initial accumulated duration. -/
def Duration.zero : Duration := ⟨0, 0⟩

/-- The error kinds of `ErrorKind` in `src/lib.rs`.  `IOError` is omitted:
for a pure in-memory byte source the only I/O failure is end-of-stream,
which the Rust `From<io::Error>` conversion maps to `UnexpectedEOF`. -/
inductive ErrorKind where
  | ForbiddenVersion
  | ForbiddenLayer
  | InvalidBitrate (bitrate : Nat)
  | InvalidSamplingRate (sampling_rate : Nat)
  | UnexpectedFrame (header : Nat)
  | UnexpectedEOF
  | MPEGFrameTooShort
deriving DecidableEq, Repr

/-- Model of `MP3DurationError`. -/
structure MP3DurationError where
  kind : ErrorKind
  offset : Nat
  at_duration : Duration
deriving DecidableEq, Repr

/-- MPEG version (`enum Version`). -/
inductive Version where
  | Mpeg1
  | Mpeg2
  | Mpeg25
deriving DecidableEq, Repr

/-- MPEG layer (`enum Layer`). -/
inductive Layer where
  | NotDefined
  | Layer1
  | Layer2
  | Layer3
deriving DecidableEq, Repr

/-- Channel mode (`enum Mode`). -/
inductive Mode where
  | Stereo
  | JointStereo
  | DualChannel
  | Mono
deriving DecidableEq, Repr

/-- The Rust discriminant (`as usize`) of `Version`. -/
def Version.idx : Version → Nat
  | .Mpeg1 => 0
  | .Mpeg2 => 1
  | .Mpeg25 => 2

/-- The Rust discriminant (`as usize`) of `Layer`. -/
def Layer.idx : Layer → Nat
  | .NotDefined => 0
  | .Layer1 => 1
  | .Layer2 => 2
  | .Layer3 => 3

/-- The Rust discriminant (`as usize`) of `Mode`. -/
def Mode.idx : Mode → Nat
  | .Stereo => 0
  | .JointStereo => 1
  | .DualChannel => 2
  | .Mono => 3

/-- The static `BIT_RATES` table (kbps), indexed `[version][layer][code]`. -/
def BIT_RATES : List (List (List Nat)) :=
  [ [ [0, 0, 0, 0, 0, 0, 0, 0, 0, 0, 0, 0, 0, 0, 0, 0],
      [0, 32, 64, 96, 128, 160, 192, 224, 256, 288, 320, 352, 384, 416, 448, 0],
      [0, 32, 48, 56, 64, 80, 96, 112, 128, 160, 192, 224, 256, 320, 384, 0],
      [0, 32, 40, 48, 56, 64, 80, 96, 112, 128, 160, 192, 224, 256, 320, 0] ],
    [ [0, 0, 0, 0, 0, 0, 0, 0, 0, 0, 0, 0, 0, 0, 0, 0],
      [0, 32, 48, 56, 64, 80, 96, 112, 128, 144, 160, 176, 192, 224, 256, 0],
      [0, 8, 16, 24, 32, 40, 48, 56, 64, 80, 96, 112, 128, 144, 160, 0],
      [0, 8, 16, 24, 32, 40, 48, 56, 64, 80, 96, 112, 128, 144, 160, 0] ],
    [ [0, 0, 0, 0, 0, 0, 0, 0, 0, 0, 0, 0, 0, 0, 0, 0],
      [0, 32, 48, 56, 64, 80, 96, 112, 128, 144, 160, 176, 192, 224, 256, 0],
      [0, 8, 16, 24, 32, 40, 48, 56, 64, 80, 96, 112, 128, 144, 160, 0],
      [0, 8, 16, 24, 32, 40, 48, 56, 64, 80, 96, 112, 128, 144, 160, 0] ] ]

/-- The static `SAMPLING_RATES` table (Hz), indexed `[version][code]`. -/
def SAMPLING_RATES : List (List Nat) :=
  [ [44100, 48000, 32000, 0],
    [22050, 24000, 16000, 0],
    [11025, 12000, 8000, 0] ]

/-- The static `SAMPLES_PER_FRAME` table, indexed `[version][layer]`. -/
def SAMPLES_PER_FRAME : List (List Nat) :=
  [ [0, 384, 1152, 1152],
    [0, 384, 1152, 576],
    [0, 384, 1152, 576] ]

/-- The static `SIDE_INFORMATION_SIZES` table, indexed `[version][mode]`. -/
def SIDE_INFORMATION_SIZES : List (List Nat) :=
  [ [32, 32, 32, 17],
    [17, 17, 17, 9],
    [17, 17, 17, 9] ]

/-- Model of `fn get_bitrate`: reject codes `>= 15`, reject the undefined
layer, otherwise return the table value times 1000. -/
def get_bitrate (version : Version) (layer : Layer) (encoded_bitrate : Nat)
    (ctx : Nat × Duration) : Except MP3DurationError Nat :=
  if 15 ≤ encoded_bitrate then
    .error ⟨.InvalidBitrate encoded_bitrate, ctx.1, ctx.2⟩
  else if layer = .NotDefined then
    .error ⟨.ForbiddenLayer, ctx.1, ctx.2⟩
  else
    .ok (1000 * (((BIT_RATES.getD version.idx []).getD layer.idx []).getD encoded_bitrate 0))

/-- Model of `fn get_sampling_rate`: reject codes `>= 3`, otherwise return
the table value. -/
def get_sampling_rate (version : Version) (encoded_sampling_rate : Nat)
    (ctx : Nat × Duration) : Except MP3DurationError Nat :=
  if 3 ≤ encoded_sampling_rate then
    .error ⟨.InvalidSamplingRate encoded_sampling_rate, ctx.1, ctx.2⟩
  else
    .ok ((SAMPLING_RATES.getD version.idx []).getD encoded_sampling_rate 0)

/-- Model of `fn get_samples_per_frame`: reject the undefined layer,
otherwise return the table value. -/
def get_samples_per_frame (version : Version) (layer : Layer)
    (ctx : Nat × Duration) : Except MP3DurationError Nat :=
  if layer = .NotDefined then
    .error ⟨.ForbiddenLayer, ctx.1, ctx.2⟩
  else
    .ok ((SAMPLES_PER_FRAME.getD version.idx []).getD layer.idx 0)

/-- Model of `fn get_side_information_size`. -/
def get_side_information_size (version : Version) (mode : Mode) : Nat :=
  (SIDE_INFORMATION_SIZES.getD version.idx []).getD mode.idx 0

/-- Number of leading `0x00` bytes, i.e. how many bytes the
skip-padding loop at the top of each scan iteration consumes before the
first nonzero byte. -/
def countZeros : List Nat → Nat
  | [] => 0
  | b :: rest => if b = 0 then countZeros rest + 1 else 0

/-- The 32-bit big-endian header word assembled from 4 bytes. -/
def word4 (b0 b1 b2 b3 : Nat) : Nat :=
  (b0 <<< 24) ||| (b1 <<< 16) ||| (b2 <<< 8) ||| b3

/-- The ID3v2 tag size computed by `from_read` from the four size bytes
(the raw shift-and-or of the source, with no masking of top bits). -/
def id3v2_tag_size (b3 b4 b5 b6 : Nat) : Nat :=
  b6 ||| (b5 <<< 7) ||| (b4 <<< 14) ||| (b3 <<< 21)

/-- The APEv2 tag size: little-endian 32-bit value from 4 bytes. -/
def ape_tag_size (a8 a9 a10 a11 : Nat) : Nat :=
  a8 ||| (a9 <<< 8) ||| (a10 <<< 16) ||| (a11 <<< 24)

/-- Whether the 12-byte peek block starts with the magic `"Xing"`. -/
def xing_magic (x : List Nat) : Prop :=
  x.getD 0 0 = 88 ∧ x.getD 1 0 = 105 ∧ x.getD 2 0 = 110 ∧ x.getD 3 0 = 103

instance (x : List Nat) : Decidable (xing_magic x) := by
  unfold xing_magic; infer_instance

/-- Whether the 12-byte peek block starts with the magic `"Info"`. -/
def info_magic (x : List Nat) : Prop :=
  x.getD 0 0 = 73 ∧ x.getD 1 0 = 110 ∧ x.getD 2 0 = 102 ∧ x.getD 3 0 = 111

instance (x : List Nat) : Decidable (info_magic x) := by
  unfold info_magic; infer_instance

/-- Whether bit 0 of the 8th byte of the peek block is set
(`xing_buffer[7] & 1 != 0`). -/
def xing_frames_flag (x : List Nat) : Prop :=
  x.getD 7 0 &&& 1 ≠ 0

instance (x : List Nat) : Decidable (xing_frames_flag x) := by
  unfold xing_frames_flag; infer_instance

/-- The big-endian 32-bit frame count in bytes 9-12 of the peek block. -/
def xing_num_frames (x : List Nat) : Nat :=
  (x.getD 8 0 <<< 24) ||| (x.getD 9 0 <<< 16) ||| (x.getD 10 0 <<< 8) ||| x.getD 11 0

/-- 2^64, the wrap-around modulus of Rust `u64` arithmetic. -/
def U64 : Nat := 18446744073709551616

/-- 2^32, the truncation modulus of an `as u32` cast. -/
def U32 : Nat := 4294967296

/-- The `billion` constant of the Xing branch. -/
def BILLION : Nat := 1000000000

/-- Outcome of one iteration of the scan loop.  `consumed` is the number
of bytes pulled from the source during the iteration (failed reads pull
nothing in this model). -/
inductive Step where
  | done (d : Duration) (consumed : Nat)
  | fail (e : MP3DurationError) (consumed : Nat)
  | next (rest : List Nat) (bytesRead : Nat) (dur : Duration) (consumed : Nat)
deriving DecidableEq, Repr

/-- Body of one iteration of the `loop { ... }` of `from_read`, after the
zero-byte skip and the 4-byte header read have succeeded.  `rest2` is the
input after the 4 header bytes, `br2` is the updated `bytes_read`
counter (old counter plus `k + 4`), and `k` is the number of zero bytes
skipped at the top of this iteration. -/
def stepCore (b0 b1 b2 b3 : Nat) (rest2 : List Nat) (br2 : Nat) (dur : Duration)
    (k : Nat) : Step :=
      let header := word4 b0 b1 b2 b3
      if header >>> 21 = 2047 then
        -- MPEG audio frame
        let vbits := (header >>> 19) &&& 3
        if vbits = 1 then .fail ⟨.ForbiddenVersion, br2, dur⟩ (k + 4)
        else
          let version : Version :=
            if vbits = 0 then .Mpeg25 else if vbits = 2 then .Mpeg2 else .Mpeg1
          let lbits := (header >>> 17) &&& 3
          let layer : Layer :=
            if lbits = 1 then .Layer3 else if lbits = 2 then .Layer2
            else if lbits = 3 then .Layer1 else .NotDefined
          let encoded_bitrate := (header >>> 12) &&& 15
          let encoded_sampling_rate := (header >>> 10) &&& 3
          let padding := if (header >>> 9) &&& 1 ≠ 0 then 1 else 0
          let mbits := (header >>> 6) &&& 3
          let mode : Mode :=
            if mbits = 0 then .Stereo else if mbits = 1 then .JointStereo
            else if mbits = 2 then .DualChannel else .Mono
          match get_sampling_rate version encoded_sampling_rate (br2, dur) with
          | .error e => .fail e (k + 4)
          | .ok sampling_rate =>
            match get_samples_per_frame version layer (br2, dur) with
            | .error e => .fail e (k + 4)
            | .ok num_samples =>
              let xing_offset := get_side_information_size version mode
              if xing_offset ≤ rest2.length then
                let rest3 := rest2.drop xing_offset
                if 12 ≤ rest3.length then
                  let xing_buffer := rest3.take 12
                  let rest4 := rest3.drop 12
                  if (xing_magic xing_buffer ∨ info_magic xing_buffer) ∧
                      xing_frames_flag xing_buffer then
                    let num_frames := xing_num_frames xing_buffer
                    let frames_x_samples := num_frames * num_samples % U64
                    let seconds := frames_x_samples / sampling_rate
                    let nanoseconds :=
                      (BILLION * frames_x_samples % U64 / sampling_rate
                        + U64 - BILLION * seconds % U64) % U64
                    .done (Duration.new seconds (nanoseconds % U32))
                      (k + 4 + xing_offset + 12)
                  else
                    match get_bitrate version layer encoded_bitrate (br2, dur) with
                    | .error e => .fail e (k + 4 + xing_offset + 12)
                    | .ok bitrate =>
                      let frame_length := num_samples / 8 * bitrate / sampling_rate + padding
                      if frame_length < 4 + xing_offset + 12 then
                        .fail ⟨.MPEGFrameTooShort, br2 + xing_offset + 12, dur⟩
                          (k + 4 + xing_offset + 12)
                      else
                        let bytes_to_next_frame := frame_length - (4 + xing_offset + 12)
                        if bytes_to_next_frame ≤ rest4.length then
                          let frame_duration := num_samples * 1000000000 / sampling_rate
                          .next (rest4.drop bytes_to_next_frame)
                            (br2 + (frame_length - 4))
                            (dur + Duration.new 0 (frame_duration % U32))
                            (k + 4 + xing_offset + 12 + bytes_to_next_frame)
                        else
                          .fail ⟨.UnexpectedEOF, br2 + xing_offset + 12, dur⟩
                            (k + 4 + xing_offset + 12)
                else .fail ⟨.UnexpectedEOF, br2 + xing_offset, dur⟩ (k + 4 + xing_offset)
              else .fail ⟨.UnexpectedEOF, br2, dur⟩ (k + 4)
      else if b0 = 73 ∧ b1 = 68 ∧ b2 = 51 then
        -- ID3v2 tag
        match rest2 with
        | _i0 :: i1 :: i2 :: i3 :: i4 :: i5 :: rest3 =>
          let flags := i1
          let footer_size := if flags &&& 16 ≠ 0 then 10 else 0
          let tag_size := id3v2_tag_size i2 i3 i4 i5
          if tag_size + footer_size ≤ rest3.length then
            .next (rest3.drop (tag_size + footer_size))
              (br2 + 6 + tag_size + footer_size) dur
              (k + 4 + 6 + tag_size + footer_size)
          else .fail ⟨.UnexpectedEOF, br2 + 6, dur⟩ (k + 4 + 6)
        | _ => .fail ⟨.UnexpectedEOF, br2, dur⟩ (k + 4)
      else if b0 = 84 ∧ b1 = 65 ∧ b2 = 71 then
        -- ID3v1 tag
        if 124 ≤ rest2.length then
          .next (rest2.drop 124) (br2 + 124) dur (k + 4 + 124)
        else .fail ⟨.UnexpectedEOF, br2, dur⟩ (k + 4)
      else if b0 = 65 ∧ b1 = 80 ∧ b2 = 69 ∧ b3 = 84 then
        -- APEv2 tag
        match rest2 with
        | a0 :: a1 :: a2 :: a3 :: _a4 :: _a5 :: _a6 :: _a7 :: a8 :: a9 :: a10 :: a11 :: rest3 =>
          if a0 = 65 ∧ a1 = 71 ∧ a2 = 69 ∧ a3 = 88 then
            let tag_size := ape_tag_size a8 a9 a10 a11
            if tag_size + 16 ≤ rest3.length then
              .next (rest3.drop (tag_size + 16)) (br2 + 12 + tag_size + 16) dur
                (k + 4 + 12 + tag_size + 16)
            else .fail ⟨.UnexpectedEOF, br2, dur⟩ (k + 4 + 12)
          else .fail ⟨.UnexpectedFrame header, br2 - 4, dur⟩ (k + 4 + 12)
        | _ => .fail ⟨.UnexpectedEOF, br2, dur⟩ (k + 4)
      else .fail ⟨.UnexpectedFrame header, br2 - 4, dur⟩ (k + 4)

/-- One iteration of the `loop { ... }` body of `from_read`, acting on the
remaining input, the `bytes_read` counter and the accumulated duration:
skip leading zero bytes, read a 4-byte header candidate (end-of-stream
while doing either breaks the loop, yielding `done`), then classify and
process the block via `stepCore`. -/
def step (input : List Nat) (bytesRead : Nat) (dur : Duration) : Step :=
  let k := countZeros input
  match input.drop k with
  | [] => .done dur k
  | b0 :: rest1 =>
    match rest1 with
    | b1 :: b2 :: b3 :: rest2 => stepCore b0 b1 b2 b3 rest2 (bytesRead + k + 4) dur k
    | _ => .done dur (k + 1)

/-- The scan loop of `from_read`, driven by fuel.  Returns the scan
result together with the total number of bytes pulled from the source. -/
def loop : Nat → List Nat → Nat → Duration → Except MP3DurationError Duration × Nat
  | 0, _, _, dur => (.ok dur, 0)
  | fuel + 1, input, bytesRead, dur =>
    match step input bytesRead dur with
    | .done d c => (.ok d, c)
    | .fail e c => (.error e, c)
    | .next rest br' d' c =>
      let r := loop fuel rest br' d'
      (r.1, c + r.2)

/-- Model of `pub fn from_read`, together with the total number of bytes
pulled from the source (`input.length + 1` fuel is always sufficient, see
`loop_fuel_congr`). -/
def from_read_c (input : List Nat) : Except MP3DurationError Duration × Nat :=
  loop (input.length + 1) input 0 Duration.zero

/-- Model of `pub fn from_read`: scan the byte stream and return the
accumulated duration or a classified error. -/
def from_read (input : List Nat) : Except MP3DurationError Duration :=
  (from_read_c input).1

/-! ### Basic helper lemmas -/

/-- A duration given as a total nanosecond count, split into whole
seconds and a nanosecond remainder. -/
def durOfNanos (T : Nat) : Duration := ⟨T / 1000000000, T % 1000000000⟩

theorem durOfNanos_zero : durOfNanos 0 = Duration.zero := rfl

theorem durOfNanos_add_new (T n : Nat) :
    durOfNanos T + Duration.new 0 n = durOfNanos (T + n) := by
  show Duration.add _ _ = _
  unfold durOfNanos Duration.add Duration.new
  dsimp only
  rw [Duration.mk.injEq]
  constructor <;> omega

theorem countZeros_cons_of_ne {b : Nat} (h : b ≠ 0) (l : List Nat) :
    countZeros (b :: l) = 0 := by
  simp [countZeros, h]

theorem countZeros_replicate_append {b : Nat} (h : b ≠ 0) (z : Nat) (l : List Nat) :
    countZeros (List.replicate z 0 ++ b :: l) = z := by
  induction z with
  | zero => simpa [countZeros] using h
  | succ n ih => simpa [countZeros] using ih

/-- The reverse mapping from a `Version` to its 2-bit header code. -/
def Version.code : Version → Nat
  | .Mpeg25 => 0
  | .Mpeg2 => 2
  | .Mpeg1 => 3

/-- The reverse mapping from a `Layer` to its 2-bit header code. -/
def Layer.code : Layer → Nat
  | .NotDefined => 0
  | .Layer3 => 1
  | .Layer2 => 2
  | .Layer1 => 3

/-- The reverse mapping from a `Mode` to its 2-bit header code. -/
def Mode.code : Mode → Nat
  | .Stereo => 0
  | .JointStereo => 1
  | .DualChannel => 2
  | .Mono => 3

theorem Version.code_ne_one (v : Version) : v.code ≠ 1 := by cases v <;> decide

theorem decode_version (v : Version) :
    (if v.code = 0 then Version.Mpeg25 else if v.code = 2 then .Mpeg2 else .Mpeg1) = v := by
  cases v <;> rfl

theorem decode_layer (l : Layer) :
    (if l.code = 1 then Layer.Layer3 else if l.code = 2 then .Layer2
     else if l.code = 3 then .Layer1 else .NotDefined) = l := by
  cases l <;> rfl

theorem decode_mode (m : Mode) :
    (if m.code = 0 then Mode.Stereo else if m.code = 1 then .JointStereo
     else if m.code = 2 then .DualChannel else .Mono) = m := by
  cases m <;> rfl

theorem padding_if_eq (n : Nat) : (if n &&& 1 ≠ 0 then 1 else 0) = n &&& 1 := by
  have h : n &&& 1 ≤ 1 := Nat.and_le_right
  split <;> omega

theorem get_sampling_rate_ok (v : Version) {esr : Nat} (h : esr < 3) (ctx : Nat × Duration) :
    get_sampling_rate v esr ctx = .ok ((SAMPLING_RATES.getD v.idx []).getD esr 0) := by
  unfold get_sampling_rate
  rw [if_neg (by omega)]

theorem get_samples_per_frame_ok {l : Layer} (v : Version) (h : l ≠ .NotDefined)
    (ctx : Nat × Duration) :
    get_samples_per_frame v l ctx = .ok ((SAMPLES_PER_FRAME.getD v.idx []).getD l.idx 0) := by
  unfold get_samples_per_frame
  rw [if_neg h]

theorem get_bitrate_ok (v : Version) {l : Layer} {ebr : Nat} (h : ebr < 15)
    (hl : l ≠ .NotDefined) (ctx : Nat × Duration) :
    get_bitrate v l ebr ctx =
      .ok (1000 * (((BIT_RATES.getD v.idx []).getD l.idx []).getD ebr 0)) := by
  unfold get_bitrate
  rw [if_neg (by omega), if_neg hl]

/-! ### Reduction of `step` on shaped inputs -/

theorem step_cons {b0 : Nat} (hb0 : b0 ≠ 0) (b1 b2 b3 : Nat) (tl : List Nat)
    (br : Nat) (d : Duration) :
    step (b0 :: b1 :: b2 :: b3 :: tl) br d = stepCore b0 b1 b2 b3 tl (br + 4) d 0 := by
  unfold step
  simp only [countZeros_cons_of_ne hb0, List.drop_zero]

theorem step_nil (br : Nat) (d : Duration) : step [] br d = .done d 0 := rfl

theorem step_short (z : Nat) {b : Nat} (hb : b ≠ 0) {t : List Nat} (ht : t.length < 3)
    (br : Nat) (d : Duration) :
    step (List.replicate z 0 ++ b :: t) br d = .done d (z + 1) := by
  have hd : (List.replicate z 0 ++ b :: t).drop z = b :: t := List.drop_left' (by simp)
  unfold step
  simp only [countZeros_replicate_append hb, hd]
  match t, ht with
  | [], _ => rfl
  | [x], _ => rfl
  | [x, y], _ => rfl

/-! ### Audio frame descriptions -/

/-- Description of one MPEG audio frame as the scanner sees it: the four
header bytes, the semantic fields they encode, and the three byte groups
read from the frame body (side information, the 12-byte peek block, and
whatever the frame-length computation says remains). -/
structure FrameDesc where
  b0 : Nat
  b1 : Nat
  b2 : Nat
  b3 : Nat
  version : Version
  layer : Layer
  mode : Mode
  encoded_bitrate : Nat
  encoded_sampling_rate : Nat
  padding : Nat
  side : List Nat
  peek : List Nat
  body : List Nat

namespace FrameDesc

/-- The 32-bit header word of the frame. -/
def hdr (f : FrameDesc) : Nat := word4 f.b0 f.b1 f.b2 f.b3

/-- The sampling rate the scanner looks up for this frame. -/
def samplingRate (f : FrameDesc) : Nat :=
  (SAMPLING_RATES.getD f.version.idx []).getD f.encoded_sampling_rate 0

/-- The samples-per-frame value the scanner looks up for this frame. -/
def numSamples (f : FrameDesc) : Nat :=
  (SAMPLES_PER_FRAME.getD f.version.idx []).getD f.layer.idx 0

/-- The side-information size of this frame. -/
def sideLen (f : FrameDesc) : Nat := get_side_information_size f.version f.mode

/-- The bitrate (bps) the scanner looks up for this frame. -/
def bitrate (f : FrameDesc) : Nat :=
  1000 * (((BIT_RATES.getD f.version.idx []).getD f.layer.idx []).getD f.encoded_bitrate 0)

/-- The frame length in bytes, as computed by the scanner. -/
def frameLength (f : FrameDesc) : Nat :=
  f.numSamples / 8 * f.bitrate / f.samplingRate + f.padding

/-- The per-frame duration in nanoseconds (truncating division), as
computed by the scanner. -/
def frameDur (f : FrameDesc) : Nat := f.numSamples * 1000000000 / f.samplingRate

/-- The byte encoding of the frame. -/
def bytes (f : FrameDesc) : List Nat :=
  f.b0 :: f.b1 :: f.b2 :: f.b3 :: (f.side ++ (f.peek ++ f.body))

/-- Header-decoding validity: the first header byte is nonzero (so the
zero-skip loop leaves it in place), the sync pattern is present, the
four bytes encode exactly the semantic fields of the description, the
sampling-rate code is in range, the layer is defined, and the side
information and peek block have the sizes the scanner will read. -/
def ValidHeader (f : FrameDesc) : Prop :=
  f.b0 ≠ 0 ∧
  f.hdr >>> 21 = 2047 ∧
  (f.hdr >>> 19) &&& 3 = f.version.code ∧
  (f.hdr >>> 17) &&& 3 = f.layer.code ∧
  (f.hdr >>> 12) &&& 15 = f.encoded_bitrate ∧
  (f.hdr >>> 10) &&& 3 = f.encoded_sampling_rate ∧
  (f.hdr >>> 9) &&& 1 = f.padding ∧
  (f.hdr >>> 6) &&& 3 = f.mode.code ∧
  f.layer ≠ .NotDefined ∧
  f.encoded_sampling_rate < 3 ∧
  f.side.length = f.sideLen ∧
  f.peek.length = 12

instance (f : FrameDesc) : Decidable f.ValidHeader := by
  unfold ValidHeader; infer_instance

/-- Validity of a plain (non-Xing) constant-bitrate frame: valid header,
the peek block does not trigger the Xing path, the bitrate code is in
the accepted range, the computed frame length covers the bytes already
consumed, and the body completes the computed frame length exactly. -/
def ValidCBR (f : FrameDesc) : Prop :=
  f.ValidHeader ∧
  ¬((xing_magic f.peek ∨ info_magic f.peek) ∧ xing_frames_flag f.peek) ∧
  f.encoded_bitrate < 15 ∧
  4 + f.sideLen + 12 ≤ f.frameLength ∧
  f.body.length = f.frameLength - (4 + f.sideLen + 12)

instance (f : FrameDesc) : Decidable f.ValidCBR := by
  unfold ValidCBR; infer_instance

/-- Validity of a frame whose peek block is a Xing/Info header with the
frame-count bit set. -/
def ValidXing (f : FrameDesc) : Prop :=
  f.ValidHeader ∧
  (xing_magic f.peek ∨ info_magic f.peek) ∧ xing_frames_flag f.peek

instance (f : FrameDesc) : Decidable f.ValidXing := by
  unfold ValidXing; infer_instance

end FrameDesc

/-! ### Step lemmas for shaped blocks -/

set_option maxRecDepth 4000 in
theorem stepCore_cbr_raw (f : FrameDesc) (hf : f.ValidCBR) (rest : List Nat) (br2 : Nat)
    (d : Duration) (k : Nat) :
    stepCore f.b0 f.b1 f.b2 f.b3 (f.side ++ (f.peek ++ (f.body ++ rest))) br2 d k =
      .next rest (br2 + (f.frameLength - 4)) (d + Duration.new 0 (f.frameDur % U32))
        (k + 4 + f.sideLen + 12 + (f.frameLength - (4 + f.sideLen + 12))) := by
  obtain ⟨⟨hb0, hsync, hver, hlay, hbr, hsr, hpad, hmode, hlne, hesr, hside, hpeek⟩,
    hnx, hebr, hlen, hbody⟩ := hf
  simp only [FrameDesc.hdr] at hsync hver hlay hbr hsr hpad hmode
  simp only [FrameDesc.sideLen, get_side_information_size] at hside
  have hlen' := hlen
  have hbody' := hbody
  simp only [FrameDesc.frameLength, FrameDesc.numSamples, FrameDesc.bitrate,
    FrameDesc.samplingRate, FrameDesc.sideLen, get_side_information_size] at hlen' hbody'
  simp only [stepCore, hsync, hver, hlay, hbr, hsr, hmode, padding_if_eq,
    get_side_information_size, if_true]
  rw [hpad]
  rw [if_neg (Version.code_ne_one f.version)]
  rw [decode_version f.version, decode_layer f.layer, decode_mode f.mode]
  rw [get_sampling_rate_ok f.version hesr (br2, d),
    get_samples_per_frame_ok f.version hlne (br2, d)]
  dsimp only
  rw [if_pos (by rw [← hside]; simp)]
  rw [List.drop_left' hside]
  rw [if_pos (by simp [hpeek])]
  rw [List.take_left' hpeek, List.drop_left' hpeek]
  rw [if_neg hnx]
  rw [get_bitrate_ok f.version hebr hlne (br2, d)]
  dsimp only
  rw [if_neg (by omega)]
  rw [if_pos (by simp only [List.length_append]; omega)]
  rw [List.drop_left' hbody']
  rfl

theorem stepCore_cbr (f : FrameDesc) (hf : f.ValidCBR) (rest : List Nat) (br2 : Nat)
    (d : Duration) (k : Nat) :
    stepCore f.b0 f.b1 f.b2 f.b3 (f.side ++ (f.peek ++ (f.body ++ rest))) br2 d k =
      .next rest (br2 + (f.frameLength - 4)) (d + Duration.new 0 (f.frameDur % U32))
        (k + f.frameLength) := by
  rw [stepCore_cbr_raw f hf rest br2 d k]
  have hlen := hf.2.2.2.1
  congr 1
  omega

namespace FrameDesc

/-- The big-endian frame count the scanner reads from a Xing/Info peek
block of this frame. -/
def numFrames (f : FrameDesc) : Nat := xing_num_frames f.peek

/-- The seconds value computed on the Xing fast path. -/
def xingSecs (f : FrameDesc) : Nat :=
  f.numFrames * f.numSamples % U64 / f.samplingRate

/-- The nanoseconds value computed on the Xing fast path, with the
wrapping `u64` multiplication and subtraction of the source. -/
def xingNanos (f : FrameDesc) : Nat :=
  (BILLION * (f.numFrames * f.numSamples % U64) % U64 / f.samplingRate
    + U64 - BILLION * f.xingSecs % U64) % U64

/-- The duration returned on the Xing fast path. -/
def xingDur (f : FrameDesc) : Duration :=
  Duration.new f.xingSecs (f.xingNanos % U32)

end FrameDesc

set_option maxRecDepth 4000 in
theorem stepCore_xing (f : FrameDesc) (hf : f.ValidXing) (tail : List Nat) (br2 : Nat)
    (d : Duration) (k : Nat) :
    stepCore f.b0 f.b1 f.b2 f.b3 (f.side ++ (f.peek ++ tail)) br2 d k =
      .done f.xingDur (k + 4 + f.sideLen + 12) := by
  obtain ⟨⟨hb0, hsync, hver, hlay, hbr, hsr, hpad, hmode, hlne, hesr, hside, hpeek⟩, hx⟩ := hf
  simp only [FrameDesc.hdr] at hsync hver hlay hbr hsr hpad hmode
  simp only [FrameDesc.sideLen, get_side_information_size] at hside
  simp only [stepCore, hsync, hver, hlay, hbr, hsr, hmode, padding_if_eq,
    get_side_information_size, if_true]
  rw [hpad]
  rw [if_neg (Version.code_ne_one f.version)]
  rw [decode_version f.version, decode_layer f.layer, decode_mode f.mode]
  rw [get_sampling_rate_ok f.version hesr (br2, d),
    get_samples_per_frame_ok f.version hlne (br2, d)]
  dsimp only
  rw [if_pos (by rw [← hside]; simp)]
  rw [List.drop_left' hside]
  rw [if_pos (by simp [hpeek])]
  rw [List.take_left' hpeek]
  rw [if_pos hx]
  rfl

set_option maxRecDepth 4000 in
theorem stepCore_frame_too_short (f : FrameDesc) (hh : f.ValidHeader)
    (hnx : ¬((xing_magic f.peek ∨ info_magic f.peek) ∧ xing_frames_flag f.peek))
    (hebr : f.encoded_bitrate < 15)
    (hshort : f.frameLength < 4 + f.sideLen + 12)
    (tail : List Nat) (br2 : Nat) (d : Duration) (k : Nat) :
    stepCore f.b0 f.b1 f.b2 f.b3 (f.side ++ (f.peek ++ tail)) br2 d k =
      .fail ⟨.MPEGFrameTooShort, br2 + f.sideLen + 12, d⟩ (k + 4 + f.sideLen + 12) := by
  obtain ⟨hb0, hsync, hver, hlay, hbr, hsr, hpad, hmode, hlne, hesr, hside, hpeek⟩ := hh
  simp only [FrameDesc.hdr] at hsync hver hlay hbr hsr hpad hmode
  simp only [FrameDesc.sideLen, get_side_information_size] at hside
  have hshort' := hshort
  simp only [FrameDesc.frameLength, FrameDesc.numSamples, FrameDesc.bitrate,
    FrameDesc.samplingRate, FrameDesc.sideLen, get_side_information_size] at hshort'
  simp only [stepCore, hsync, hver, hlay, hbr, hsr, hmode, padding_if_eq,
    get_side_information_size, if_true]
  rw [hpad]
  rw [if_neg (Version.code_ne_one f.version)]
  rw [decode_version f.version, decode_layer f.layer, decode_mode f.mode]
  rw [get_sampling_rate_ok f.version hesr (br2, d),
    get_samples_per_frame_ok f.version hlne (br2, d)]
  dsimp only
  rw [if_pos (by rw [← hside]; simp)]
  rw [List.drop_left' hside]
  rw [if_pos (by simp [hpeek])]
  rw [List.take_left' hpeek, List.drop_left' hpeek]
  rw [if_neg hnx]
  rw [get_bitrate_ok f.version hebr hlne (br2, d)]
  dsimp only
  rw [if_pos hshort']
  rfl

set_option maxRecDepth 4000 in
theorem stepCore_frame_trunc (f : FrameDesc) (hh : f.ValidHeader)
    (hnx : ¬((xing_magic f.peek ∨ info_magic f.peek) ∧ xing_frames_flag f.peek))
    (hebr : f.encoded_bitrate < 15)
    (hlen : 4 + f.sideLen + 12 ≤ f.frameLength)
    {tail : List Nat} (htail : tail.length < f.frameLength - (4 + f.sideLen + 12))
    (br2 : Nat) (d : Duration) (k : Nat) :
    stepCore f.b0 f.b1 f.b2 f.b3 (f.side ++ (f.peek ++ tail)) br2 d k =
      .fail ⟨.UnexpectedEOF, br2 + f.sideLen + 12, d⟩ (k + 4 + f.sideLen + 12) := by
  obtain ⟨hb0, hsync, hver, hlay, hbr, hsr, hpad, hmode, hlne, hesr, hside, hpeek⟩ := hh
  simp only [FrameDesc.hdr] at hsync hver hlay hbr hsr hpad hmode
  simp only [FrameDesc.sideLen, get_side_information_size] at hside
  have hlen' := hlen
  have htail' := htail
  simp only [FrameDesc.frameLength, FrameDesc.numSamples, FrameDesc.bitrate,
    FrameDesc.samplingRate, FrameDesc.sideLen, get_side_information_size] at hlen' htail'
  simp only [stepCore, hsync, hver, hlay, hbr, hsr, hmode, padding_if_eq,
    get_side_information_size, if_true]
  rw [hpad]
  rw [if_neg (Version.code_ne_one f.version)]
  rw [decode_version f.version, decode_layer f.layer, decode_mode f.mode]
  rw [get_sampling_rate_ok f.version hesr (br2, d),
    get_samples_per_frame_ok f.version hlne (br2, d)]
  dsimp only
  rw [if_pos (by rw [← hside]; simp)]
  rw [List.drop_left' hside]
  rw [if_pos (by simp [hpeek])]
  rw [List.take_left' hpeek, List.drop_left' hpeek]
  rw [if_neg hnx]
  rw [get_bitrate_ok f.version hebr hlne (br2, d)]
  dsimp only
  rw [if_neg (by omega)]
  rw [if_neg (by omega)]
  rfl

theorem stepCore_id3v2 (v i0 flags s3 s4 s5 s6 : Nat)
    (hns : word4 73 68 51 v >>> 21 ≠ 2047)
    {payload : List Nat}
    (hplen : payload.length = id3v2_tag_size s3 s4 s5 s6 +
      (if flags &&& 16 ≠ 0 then 10 else 0))
    (rest : List Nat) (br2 : Nat) (d : Duration) (k : Nat) :
    stepCore 73 68 51 v (i0 :: flags :: s3 :: s4 :: s5 :: s6 :: (payload ++ rest)) br2 d k =
      .next rest
        (br2 + 6 + id3v2_tag_size s3 s4 s5 s6 + (if flags &&& 16 ≠ 0 then 10 else 0)) d
        (k + 4 + 6 + id3v2_tag_size s3 s4 s5 s6 + (if flags &&& 16 ≠ 0 then 10 else 0)) := by
  simp only [stepCore]
  rw [if_neg hns]
  rw [if_pos (by simp)]
  rw [if_pos (by simp only [List.length_append]; omega)]
  rw [List.drop_left' hplen]

theorem stepCore_id3v1 (v : Nat)
    (hns : word4 84 65 71 v >>> 21 ≠ 2047)
    {payload : List Nat} (hplen : payload.length = 124)
    (rest : List Nat) (br2 : Nat) (d : Duration) (k : Nat) :
    stepCore 84 65 71 v (payload ++ rest) br2 d k =
      .next rest (br2 + 124) d (k + 4 + 124) := by
  simp only [stepCore]
  rw [if_neg hns]
  rw [if_neg (by simp)]
  rw [if_pos (by simp)]
  rw [if_pos (by simp only [List.length_append]; omega)]
  rw [List.drop_left' hplen]

theorem stepCore_ape (g0 g1 g2 g3 t0 t1 t2 t3 : Nat)
    {payload : List Nat} (hplen : payload.length = ape_tag_size t0 t1 t2 t3 + 16)
    (rest : List Nat) (br2 : Nat) (d : Duration) (k : Nat) :
    stepCore 65 80 69 84
      (65 :: 71 :: 69 :: 88 :: g0 :: g1 :: g2 :: g3 :: t0 :: t1 :: t2 :: t3 :: (payload ++ rest))
      br2 d k =
      .next rest (br2 + 12 + ape_tag_size t0 t1 t2 t3 + 16) d
        (k + 4 + 12 + ape_tag_size t0 t1 t2 t3 + 16) := by
  simp only [stepCore]
  rw [if_neg (by decide)]
  rw [if_neg (by simp)]
  rw [if_neg (by simp)]
  rw [if_pos (by simp)]
  rw [if_pos (by simp)]
  rw [if_pos (by simp only [List.length_append]; omega)]
  rw [List.drop_left' hplen]

/-! ### Top-level blocks and whole-stream scans -/

/-- A complete top-level block of the stream: an audio frame (non-Xing,
measured per-frame), an ID3v2 tag, an ID3v1 tag, or an APEv2 tag. -/
inductive Block where
  | audio (f : FrameDesc)
  | id3v2 (v i0 flags s3 s4 s5 s6 : Nat) (payload : List Nat)
  | id3v1 (v : Nat) (payload : List Nat)
  | ape (g0 g1 g2 g3 t0 t1 t2 t3 : Nat) (payload : List Nat)

namespace Block

/-- The byte encoding of a block. -/
def bytes : Block → List Nat
  | .audio f => f.bytes
  | .id3v2 v i0 flags s3 s4 s5 s6 payload =>
    73 :: 68 :: 51 :: v :: i0 :: flags :: s3 :: s4 :: s5 :: s6 :: payload
  | .id3v1 v payload => 84 :: 65 :: 71 :: v :: payload
  | .ape g0 g1 g2 g3 t0 t1 t2 t3 payload =>
    65 :: 80 :: 69 :: 84 :: 65 :: 71 :: 69 :: 88 ::
      g0 :: g1 :: g2 :: g3 :: t0 :: t1 :: t2 :: t3 :: payload

/-- The number of bytes the scanner consumes for the block (equal to its
byte length when the block is valid). -/
def size : Block → Nat
  | .audio f => f.frameLength
  | .id3v2 _ _ flags s3 s4 s5 s6 _ =>
    10 + id3v2_tag_size s3 s4 s5 s6 + (if flags &&& 16 ≠ 0 then 10 else 0)
  | .id3v1 _ _ => 128
  | .ape _ _ _ _ t0 t1 t2 t3 _ => 32 + ape_tag_size t0 t1 t2 t3

/-- The nanoseconds the block adds to the accumulated duration. -/
def durNanos : Block → Nat
  | .audio f => f.frameDur % U32
  | _ => 0

/-- Validity of a block: the scanner classifies it by its magic, reads
exactly its bytes, and moves on. -/
def Valid : Block → Prop
  | .audio f => f.ValidCBR
  | .id3v2 v _ flags s3 s4 s5 s6 payload =>
    word4 73 68 51 v >>> 21 ≠ 2047 ∧
    payload.length = id3v2_tag_size s3 s4 s5 s6 + (if flags &&& 16 ≠ 0 then 10 else 0)
  | .id3v1 v payload => word4 84 65 71 v >>> 21 ≠ 2047 ∧ payload.length = 124
  | .ape _ _ _ _ t0 t1 t2 t3 payload => payload.length = ape_tag_size t0 t1 t2 t3 + 16

instance (b : Block) : Decidable b.Valid := by
  cases b <;> (unfold Valid; infer_instance)

/-- The concatenated byte stream of a list of blocks. -/
def concat : List Block → List Nat
  | [] => []
  | b :: tl => b.bytes ++ concat tl

/-- The total scanner consumption of a list of blocks. -/
def sizes : List Block → Nat
  | [] => 0
  | b :: tl => b.size + sizes tl

/-- The total accumulated nanoseconds of a list of blocks. -/
def nanos : List Block → Nat
  | [] => 0
  | b :: tl => b.durNanos + nanos tl

end Block

theorem step_block (b : Block) (hb : b.Valid) (rest : List Nat) (br : Nat) (T : Nat) :
    step (Block.bytes b ++ rest) br (durOfNanos T) =
      .next rest (br + b.size) (durOfNanos (T + b.durNanos)) b.size := by
  cases b with
  | audio f =>
    have hb0 : f.b0 ≠ 0 := hb.1.1
    have hlen : 4 + f.sideLen + 12 ≤ f.frameLength := hb.2.2.2.1
    show step (f.bytes ++ rest) br (durOfNanos T) = _
    have hshape : f.bytes ++ rest =
        f.b0 :: f.b1 :: f.b2 :: f.b3 :: (f.side ++ (f.peek ++ (f.body ++ rest))) := by
      simp [FrameDesc.bytes]
    rw [hshape, step_cons hb0, stepCore_cbr f hb _ _ _ _, durOfNanos_add_new]
    simp only [Block.size, Block.durNanos]
    congr 1 <;> omega
  | id3v2 v i0 flags s3 s4 s5 s6 payload =>
    obtain ⟨hns, hplen⟩ := hb
    show step (73 :: 68 :: 51 :: v :: i0 :: flags :: s3 :: s4 :: s5 :: s6 :: payload ++ rest)
      br (durOfNanos T) = _
    rw [show (73 :: 68 :: 51 :: v :: i0 :: flags :: s3 :: s4 :: s5 :: s6 :: payload ++ rest :
        List Nat) =
      73 :: 68 :: 51 :: v :: (i0 :: flags :: s3 :: s4 :: s5 :: s6 :: (payload ++ rest)) by simp]
    rw [step_cons (by omega), stepCore_id3v2 v i0 flags s3 s4 s5 s6 hns hplen]
    simp only [Block.size, Block.durNanos, Nat.add_zero]
    congr 1 <;> omega
  | id3v1 v payload =>
    obtain ⟨hns, hplen⟩ := hb
    show step (84 :: 65 :: 71 :: v :: payload ++ rest) br (durOfNanos T) = _
    rw [show (84 :: 65 :: 71 :: v :: payload ++ rest : List Nat) =
      84 :: 65 :: 71 :: v :: (payload ++ rest) by simp]
    rw [step_cons (by omega), stepCore_id3v1 v hns hplen]
    simp only [Block.size, Block.durNanos, Nat.add_zero]
  | ape g0 g1 g2 g3 t0 t1 t2 t3 payload =>
    have hplen := hb
    show step (65 :: 80 :: 69 :: 84 :: 65 :: 71 :: 69 :: 88 ::
      g0 :: g1 :: g2 :: g3 :: t0 :: t1 :: t2 :: t3 :: payload ++ rest) br (durOfNanos T) = _
    rw [show (65 :: 80 :: 69 :: 84 :: 65 :: 71 :: 69 :: 88 ::
      g0 :: g1 :: g2 :: g3 :: t0 :: t1 :: t2 :: t3 :: payload ++ rest : List Nat) =
      65 :: 80 :: 69 :: 84 :: (65 :: 71 :: 69 :: 88 ::
      g0 :: g1 :: g2 :: g3 :: t0 :: t1 :: t2 :: t3 :: (payload ++ rest)) by simp]
    rw [step_cons (by omega), stepCore_ape g0 g1 g2 g3 t0 t1 t2 t3 hplen]
    simp only [Block.size, Block.durNanos, Nat.add_zero]
    congr 1 <;> omega

theorem loop_succ (fuel : Nat) (input : List Nat) (br : Nat) (d : Duration) :
    loop (fuel + 1) input br d =
      match step input br d with
      | .done d' c => (.ok d', c)
      | .fail e c => (.error e, c)
      | .next rest br' d' c => ((loop fuel rest br' d').1, c + (loop fuel rest br' d').2) := rfl

theorem loop_nil (fuel : Nat) (br : Nat) (d : Duration) :
    loop (fuel + 1) [] br d = (.ok d, 0) := rfl

theorem loop_block (b : Block) (hb : b.Valid) (fuel : Nat) (rest : List Nat) (br T : Nat) :
    loop (fuel + 1) (Block.bytes b ++ rest) br (durOfNanos T) =
      ((loop fuel rest (br + b.size) (durOfNanos (T + b.durNanos))).1,
       b.size + (loop fuel rest (br + b.size) (durOfNanos (T + b.durNanos))).2) := by
  rw [loop_succ, step_block b hb]

theorem loop_blocks (bs : List Block) (hv : ∀ b ∈ bs, b.Valid) (fuel : Nat)
    (rest : List Nat) (br T : Nat) :
    loop (bs.length + fuel) (Block.concat bs ++ rest) br (durOfNanos T) =
      ((loop fuel rest (br + Block.sizes bs) (durOfNanos (T + Block.nanos bs))).1,
       Block.sizes bs +
         (loop fuel rest (br + Block.sizes bs) (durOfNanos (T + Block.nanos bs))).2) := by
  induction bs generalizing fuel rest br T with
  | nil => simp [Block.concat, Block.sizes, Block.nanos]
  | cons b tl ih =>
    have hb : b.Valid := hv b (List.mem_cons_self b tl)
    have htl : ∀ x ∈ tl, x.Valid := fun x hx => hv x (List.mem_cons_of_mem b hx)
    show loop (tl.length + 1 + fuel) ((Block.bytes b ++ Block.concat tl) ++ rest) br
      (durOfNanos T) = _
    rw [List.append_assoc]
    rw [show tl.length + 1 + fuel = (tl.length + fuel) + 1 by omega]
    rw [loop_block b hb (tl.length + fuel) (Block.concat tl ++ rest) br T]
    rw [ih htl fuel rest (br + b.size) (T + b.durNanos)]
    simp only [Block.sizes, Block.nanos]
    rw [show br + b.size + Block.sizes tl = br + (b.size + Block.sizes tl) by omega,
        show T + b.durNanos + Block.nanos tl = T + (b.durNanos + Block.nanos tl) by omega]
    rw [Nat.add_assoc]

theorem block_bytes_length_pos (b : Block) : 0 < (Block.bytes b).length := by
  cases b <;> simp [Block.bytes, FrameDesc.bytes]

theorem concat_length_ge (bs : List Block) : bs.length ≤ (Block.concat bs).length := by
  induction bs with
  | nil => simp [Block.concat]
  | cons b tl ih =>
    have := block_bytes_length_pos b
    simp only [Block.concat, List.length_append, List.length_cons]
    omega

theorem from_read_c_blocks (bs : List Block) (hv : ∀ b ∈ bs, b.Valid) :
    from_read_c (Block.concat bs) = (.ok (durOfNanos (Block.nanos bs)), Block.sizes bs) := by
  unfold from_read_c
  have hle := concat_length_ge bs
  obtain ⟨g, hg⟩ : ∃ g, (Block.concat bs).length + 1 = bs.length + (g + 1) :=
    ⟨(Block.concat bs).length - bs.length, by omega⟩
  rw [hg]
  rw [show (Duration.zero : Duration) = durOfNanos 0 from rfl]
  rw [show loop (bs.length + (g + 1)) (Block.concat bs) 0 (durOfNanos 0) =
      loop (bs.length + (g + 1)) (Block.concat bs ++ []) 0 (durOfNanos 0) by
    rw [List.append_nil]]
  rw [loop_blocks bs hv (g + 1) [] 0 0]
  rw [loop_nil]
  simp

theorem from_read_blocks (bs : List Block) (hv : ∀ b ∈ bs, b.Valid) :
    from_read (Block.concat bs) = .ok (durOfNanos (Block.nanos bs)) := by
  unfold from_read
  rw [from_read_c_blocks bs hv]

theorem from_read_xing (f : FrameDesc) (hf : f.ValidXing) (tail : List Nat) :
    from_read (f.b0 :: f.b1 :: f.b2 :: f.b3 :: (f.side ++ (f.peek ++ tail))) =
      .ok f.xingDur := by
  unfold from_read from_read_c
  rw [loop_succ, step_cons hf.1.1, stepCore_xing f hf tail _ _ _]

theorem from_read_frame_too_short (f : FrameDesc) (hh : f.ValidHeader)
    (hnx : ¬((xing_magic f.peek ∨ info_magic f.peek) ∧ xing_frames_flag f.peek))
    (hebr : f.encoded_bitrate < 15)
    (hshort : f.frameLength < 4 + f.sideLen + 12) (tail : List Nat) :
    from_read (f.b0 :: f.b1 :: f.b2 :: f.b3 :: (f.side ++ (f.peek ++ tail))) =
      .error ⟨.MPEGFrameTooShort, 4 + f.sideLen + 12, Duration.zero⟩ := by
  unfold from_read from_read_c
  rw [loop_succ, step_cons hh.1, stepCore_frame_too_short f hh hnx hebr hshort tail _ _ _]

theorem from_read_c_blocks_trunc (bs : List Block) (hv : ∀ b ∈ bs, b.Valid)
    (f : FrameDesc) (hh : f.ValidHeader)
    (hnx : ¬((xing_magic f.peek ∨ info_magic f.peek) ∧ xing_frames_flag f.peek))
    (hebr : f.encoded_bitrate < 15)
    (hlen : 4 + f.sideLen + 12 ≤ f.frameLength)
    {tail : List Nat} (htail : tail.length < f.frameLength - (4 + f.sideLen + 12)) :
    from_read_c (Block.concat bs ++
        (f.b0 :: f.b1 :: f.b2 :: f.b3 :: (f.side ++ (f.peek ++ tail)))) =
      (.error ⟨.UnexpectedEOF, Block.sizes bs + 4 + f.sideLen + 12,
        durOfNanos (Block.nanos bs)⟩,
       Block.sizes bs + (4 + f.sideLen + 12)) := by
  unfold from_read_c
  have hle : bs.length ≤ (Block.concat bs ++
      (f.b0 :: f.b1 :: f.b2 :: f.b3 :: (f.side ++ (f.peek ++ tail)))).length := by
    have := concat_length_ge bs
    simp only [List.length_append]
    omega
  obtain ⟨g, hg⟩ : ∃ g, (Block.concat bs ++
      (f.b0 :: f.b1 :: f.b2 :: f.b3 :: (f.side ++ (f.peek ++ tail)))).length + 1 =
      bs.length + (g + 1) :=
    ⟨(Block.concat bs ++
      (f.b0 :: f.b1 :: f.b2 :: f.b3 :: (f.side ++ (f.peek ++ tail)))).length - bs.length,
     by omega⟩
  rw [hg]
  rw [show (Duration.zero : Duration) = durOfNanos 0 from rfl]
  rw [loop_blocks bs hv (g + 1) _ 0 0]
  rw [loop_succ, step_cons hh.1, stepCore_frame_trunc f hh hnx hebr hlen htail _ _ _]
  simp [Nat.zero_add]

/-! ### The offset/consumption invariant -/

theorem get_sampling_rate_error_offset {v : Version} {esr x : Nat} {dd : Duration}
    {e : MP3DurationError} (h : get_sampling_rate v esr (x, dd) = .error e) :
    e.offset = x := by
  unfold get_sampling_rate at h
  split at h
  · cases h; rfl
  · cases h

theorem get_samples_per_frame_error_offset {v : Version} {l : Layer} {x : Nat}
    {dd : Duration} {e : MP3DurationError}
    (h : get_samples_per_frame v l (x, dd) = .error e) : e.offset = x := by
  unfold get_samples_per_frame at h
  split at h
  · cases h; rfl
  · cases h

theorem get_bitrate_error_offset {v : Version} {l : Layer} {ebr x : Nat}
    {dd : Duration} {e : MP3DurationError}
    (h : get_bitrate v l ebr (x, dd) = .error e) : e.offset = x := by
  unfold get_bitrate at h
  split at h
  · cases h; rfl
  · split at h
    · cases h; rfl
    · cases h

/-- The per-iteration offset/consumption relation: a failing iteration
reports an offset no larger than the bytes pulled so far, and a
continuing iteration advances `bytes_read` by exactly the bytes it
pulled — a positive amount (in fact at least the 4 header bytes), so
the bytes-consumed counter strictly increases over the scan. -/
def stepOffOk (br : Nat) : Step → Prop
  | .done _ _ => True
  | .fail e c => e.offset ≤ br + c
  | .next _ br' _ c => br' = br + c ∧ 4 ≤ c

set_option maxHeartbeats 1000000 in
theorem stepCore_inv (b0 b1 b2 b3 : Nat) (rest2 : List Nat) (br k : Nat) (d : Duration) :
    stepOffOk br (stepCore b0 b1 b2 b3 rest2 (br + k + 4) d k) := by
  simp only [stepCore]
  generalize word4 b0 b1 b2 b3 = W
  by_cases hsync : W >>> 21 = 2047
  · rw [if_pos hsync]
    by_cases hv : W >>> 19 &&& 3 = 1
    · rw [if_pos hv]
      simp only [stepOffOk]
      omega
    · rw [if_neg hv]
      generalize (if W >>> 19 &&& 3 = 0 then Version.Mpeg25
        else if W >>> 19 &&& 3 = 2 then Version.Mpeg2 else Version.Mpeg1) = V
      generalize (if W >>> 17 &&& 3 = 1 then Layer.Layer3
        else if W >>> 17 &&& 3 = 2 then Layer.Layer2
        else if W >>> 17 &&& 3 = 3 then Layer.Layer1 else Layer.NotDefined) = L
      generalize (if W >>> 6 &&& 3 = 0 then Mode.Stereo
        else if W >>> 6 &&& 3 = 1 then Mode.JointStereo
        else if W >>> 6 &&& 3 = 2 then Mode.DualChannel else Mode.Mono) = M
      generalize (if W >>> 9 &&& 1 ≠ 0 then 1 else 0 : Nat) = PD
      generalize W >>> 12 &&& 15 = EB
      generalize W >>> 10 &&& 3 = ES
      rcases hq1 : get_sampling_rate V ES (br + k + 4, d) with ⟨e1⟩ | ⟨sr⟩
      · simp only [hq1, stepOffOk]
        have := get_sampling_rate_error_offset hq1
        omega
      · simp only [hq1]
        rcases hq2 : get_samples_per_frame V L (br + k + 4, d) with ⟨e2⟩ | ⟨ns⟩
        · simp only [hq2, stepOffOk]
          have := get_samples_per_frame_error_offset hq2
          omega
        · simp only [hq2]
          generalize get_side_information_size V M = XO
          by_cases hxo : XO ≤ rest2.length
          · rw [if_pos hxo]
            by_cases h12 : 12 ≤ (rest2.drop XO).length
            · rw [if_pos h12]
              generalize (rest2.drop XO).take 12 = PK
              generalize (rest2.drop XO).drop 12 = R4
              by_cases hx : (xing_magic PK ∨ info_magic PK) ∧ xing_frames_flag PK
              · rw [if_pos hx]
                trivial
              · rw [if_neg hx]
                rcases hq3 : get_bitrate V L EB (br + k + 4, d) with ⟨e3⟩ | ⟨bitr⟩
                · simp only [hq3, stepOffOk]
                  have := get_bitrate_error_offset hq3
                  omega
                · simp only [hq3]
                  by_cases hfl : ns / 8 * bitr / sr + PD < 4 + XO + 12
                  · rw [if_pos hfl]
                    simp only [stepOffOk]
                    omega
                  · rw [if_neg hfl]
                    by_cases hskip : ns / 8 * bitr / sr + PD - (4 + XO + 12) ≤ R4.length
                    · rw [if_pos hskip]
                      simp only [stepOffOk]
                      omega
                    · rw [if_neg hskip]
                      simp only [stepOffOk]
                      omega
            · rw [if_neg h12]
              simp only [stepOffOk]
              omega
          · rw [if_neg hxo]
            simp only [stepOffOk]
            omega
  · rw [if_neg hsync]
    by_cases hid3 : b0 = 73 ∧ b1 = 68 ∧ b2 = 51
    · rw [if_pos hid3]
      split
      · split_ifs <;> (simp only [stepOffOk]; omega)
      · simp only [stepOffOk]
        omega
    · rw [if_neg hid3]
      by_cases htag : b0 = 84 ∧ b1 = 65 ∧ b2 = 71
      · rw [if_pos htag]
        by_cases h124 : 124 ≤ rest2.length
        · rw [if_pos h124]
          simp only [stepOffOk]
          omega
        · rw [if_neg h124]
          simp only [stepOffOk]
          omega
      · rw [if_neg htag]
        by_cases hape : b0 = 65 ∧ b1 = 80 ∧ b2 = 69 ∧ b3 = 84
        · rw [if_pos hape]
          split
          · split
            · split
              · simp only [stepOffOk]
                omega
              · simp only [stepOffOk]
                omega
            · simp only [stepOffOk]
              omega
          · simp only [stepOffOk]
            omega
        · rw [if_neg hape]
          simp only [stepOffOk]
          omega

theorem step_eq (input : List Nat) (br : Nat) (d : Duration) :
    step input br d =
      match input.drop (countZeros input) with
      | [] => .done d (countZeros input)
      | b0 :: rest1 =>
        match rest1 with
        | b1 :: b2 :: b3 :: rest2 =>
          stepCore b0 b1 b2 b3 rest2 (br + countZeros input + 4) d (countZeros input)
        | _ => .done d (countZeros input + 1) := rfl

theorem step_inv (input : List Nat) (br : Nat) (d : Duration) :
    stepOffOk br (step input br d) := by
  rw [step_eq]
  split
  · trivial
  · split
    · exact stepCore_inv _ _ _ _ _ _ _ _
    · trivial

theorem loop_fail_offset (fuel : Nat) :
    ∀ (input : List Nat) (br : Nat) (d : Duration) (e : MP3DurationError) (c : Nat),
    loop fuel input br d = (.error e, c) → e.offset ≤ br + c := by
  induction fuel with
  | zero =>
    intro input br d e c h
    simp [loop] at h
  | succ n ih =>
    intro input br d e c h
    rw [loop_succ] at h
    have hinv := step_inv input br d
    rcases hs : step input br d with ⟨d', c'⟩ | ⟨e', c'⟩ | ⟨rest, br', d', c'⟩
    · rw [hs] at h; simp at h
    · rw [hs] at h hinv
      simp only [stepOffOk] at hinv
      simp only [Prod.mk.injEq] at h
      obtain ⟨h1, h2⟩ := h
      cases h1
      omega
    · rw [hs] at h hinv
      simp only [stepOffOk] at hinv
      simp only [Prod.mk.injEq] at h
      obtain ⟨h1, h2⟩ := h
      rcases hr : loop n rest br' d' with ⟨res, cc⟩
      rw [hr] at h1 h2
      simp only at h1 h2
      have := ih rest br' d' e cc (by rw [hr, h1])
      omega

theorem from_read_c_fail_offset (input : List Nat) (e : MP3DurationError) (c : Nat)
    (h : from_read_c input = (.error e, c)) : e.offset ≤ c := by
  have := loop_fail_offset (input.length + 1) input 0 Duration.zero e c h
  omega

/-! ### Table bounds and exact-split arithmetic -/

theorem samplingRate_pos (v : Version) {esr : Nat} (h : esr < 3) :
    0 < (SAMPLING_RATES.getD v.idx []).getD esr 0 := by
  cases v <;> interval_cases esr <;> decide

theorem samplingRate_ge (v : Version) {esr : Nat} (h : esr < 3) :
    8000 ≤ (SAMPLING_RATES.getD v.idx []).getD esr 0 := by
  cases v <;> interval_cases esr <;> decide

theorem numSamples_le (v : Version) (l : Layer) :
    (SAMPLES_PER_FRAME.getD v.idx []).getD l.idx 0 ≤ 1152 := by
  cases v <;> cases l <;> decide

theorem frameDur_lt_U32 (f : FrameDesc) (hh : f.ValidHeader) : f.frameDur < U32 := by
  obtain ⟨-, -, -, -, -, -, -, -, -, hesr, -, -⟩ := hh
  have h8 : 8000 ≤ f.samplingRate := samplingRate_ge f.version hesr
  have h1 : f.frameDur ≤ f.numSamples * 1000000000 / 8000 :=
    Nat.div_le_div_left h8 (by norm_num)
  have h2 : f.numSamples * 1000000000 / 8000 ≤ 1152 * 1000000000 / 8000 :=
    Nat.div_le_div_right (Nat.mul_le_mul_right _ (numSamples_le f.version f.layer))
  unfold U32
  omega

theorem xingDur_exact (f : FrameDesc) (hh : f.ValidHeader)
    (hov : BILLION * (f.numFrames * f.numSamples) < U64) :
    f.xingDur = durOfNanos (f.numFrames * f.numSamples * BILLION / f.samplingRate) := by
  have hesr : f.encoded_sampling_rate < 3 := hh.2.2.2.2.2.2.2.2.2.1
  have hR : 0 < f.samplingRate := samplingRate_pos f.version hesr
  simp only [FrameDesc.xingDur, FrameDesc.xingSecs, FrameDesc.xingNanos, durOfNanos,
    Duration.new]
  set F := f.numFrames * f.numSamples with hF
  set R := f.samplingRate with hRd
  have hBF : BILLION * F < U64 := hov
  have hFU : F < U64 := by
    have : F ≤ BILLION * F := Nat.le_mul_of_pos_left F (by unfold BILLION; omega)
    omega
  have hq := Nat.div_add_mod F R
  have hm : F % R < R := Nat.mod_lt _ hR
  have hsplit : BILLION * F = R * (BILLION * (F / R)) + BILLION * (F % R) := by
    conv_lhs => rw [← hq]
    ring
  have ha : BILLION * F / R = BILLION * (F / R) + BILLION * (F % R) / R := by
    rw [hsplit, Nat.mul_add_div hR]
  have hn : BILLION * (F % R) / R < BILLION := by
    rw [Nat.div_lt_iff_lt_mul hR]
    exact mul_lt_mul_of_pos_left hm (by unfold BILLION; omega)
  have hbu : BILLION * (F / R) ≤ BILLION * F :=
    Nat.mul_le_mul_left _ (Nat.div_le_self F R)
  rw [Nat.mod_eq_of_lt hFU]
  rw [Nat.mod_eq_of_lt hBF]
  rw [Nat.mod_eq_of_lt (show BILLION * (F / R) < U64 by omega)]
  rw [ha]
  rw [show F * BILLION = BILLION * F from Nat.mul_comm _ _, ha]
  simp only [BILLION] at hn
  simp only [BILLION, U64, U32]
  rw [Duration.mk.injEq]
  generalize 1000000000 * (F % R) / R = n' at hn ⊢
  generalize F / R = q
  constructor <;> omega

theorem nanos_audio (fs : List FrameDesc) (R S : Nat) (hv : ∀ f ∈ fs, f.ValidCBR)
    (hR : ∀ f ∈ fs, f.samplingRate = R) (hS : ∀ f ∈ fs, f.numSamples = S) :
    Block.nanos (fs.map Block.audio) = fs.length * (S * 1000000000 / R) := by
  induction fs with
  | nil => simp [Block.nanos]
  | cons f tl ih =>
    simp only [List.map_cons, Block.nanos, Block.durNanos, List.length_cons]
    have h1 : f.frameDur < U32 :=
      frameDur_lt_U32 f (hv f (List.mem_cons_self f tl)).1
    have h2 : f.frameDur = S * 1000000000 / R := by
      rw [FrameDesc.frameDur, hS f (List.mem_cons_self f tl),
        hR f (List.mem_cons_self f tl)]
    rw [Nat.mod_eq_of_lt h1, h2,
      ih (fun x hx => hv x (List.mem_cons_of_mem f hx))
         (fun x hx => hR x (List.mem_cons_of_mem f hx))
         (fun x hx => hS x (List.mem_cons_of_mem f hx))]
    ring

/-- A concrete 139-byte MPEG 2.5 Layer I frame (32 kbps, 11025 Hz, mono,
no padding, no Xing header). -/
def cbrDesc : FrameDesc :=
  ⟨255, 231, 16, 192, .Mpeg25, .Layer1, .Mono, 1, 0, 0,
   List.replicate 9 0, List.replicate 12 0, List.replicate 114 0⟩

/-- A concrete Xing frame with frame count 1. -/
def xingDesc : FrameDesc :=
  ⟨255, 231, 16, 192, .Mpeg25, .Layer1, .Mono, 1, 0, 0,
   List.replicate 9 0, [88, 105, 110, 103, 0, 0, 0, 1, 0, 0, 0, 1], []⟩

/-- A concrete Xing frame whose `u64` nanosecond computation overflows:
frame count `0xFFFFFFFF` at 384 samples/frame. -/
def xingOvDesc : FrameDesc :=
  ⟨255, 231, 16, 192, .Mpeg25, .Layer1, .Mono, 1, 0, 0,
   List.replicate 9 0, [88, 105, 110, 103, 0, 0, 0, 1, 255, 255, 255, 255], []⟩

/-- A concrete frame with the free-format bitrate code 0, whose computed
frame length 0 is shorter than the bytes already consumed. -/
def shortDesc : FrameDesc :=
  ⟨255, 231, 0, 192, .Mpeg25, .Layer1, .Mono, 0, 0, 0,
   List.replicate 9 0, List.replicate 12 0, []⟩

/-- A concrete Xing frame whose header carries the reserved bitrate code 15. -/
def xingBr15Desc : FrameDesc :=
  ⟨255, 231, 240, 192, .Mpeg25, .Layer1, .Mono, 15, 0, 0,
   List.replicate 9 0, [88, 105, 110, 103, 0, 0, 0, 1, 0, 0, 0, 1], []⟩


/-! ### Claim C3 -/

/-- C3 counterexample: a stream consisting of the single nonzero byte
`0xFF` ends after a nonzero first header byte and before the remaining
3 header bytes can be read, yet `from_read` returns `Ok` with duration
zero instead of failing with `UnexpectedEOF` as the claim states. -/
theorem C3_counterexample : from_read [255] = .ok Duration.zero := by rfl

/-- C3 amended: for every input stream that ends after a nonzero first
header byte but before the remaining 3 bytes of the 4-byte header
candidate can be read, `from_read` treats the end-of-stream as normal
termination and returns `Ok` with the accumulated duration (here the
initial zero duration), not an `UnexpectedEOF` error. -/
theorem C3_theorem (z b : Nat) (t : List Nat) (hb : b ≠ 0) (ht : t.length < 3) :
    from_read (List.replicate z 0 ++ b :: t) = .ok Duration.zero := by
  unfold from_read from_read_c
  rw [loop_succ, step_short z hb ht]

/-- Witness for C3: the amended theorem applied at a concrete stream of
two padding zeros, the byte `0xFF` and two further bytes. -/
theorem C3_witness : from_read (List.replicate 2 0 ++ 255 :: [251, 144]) =
    .ok Duration.zero :=
  C3_theorem 2 255 [251, 144] (by decide) (by decide)

/-! ### Claim C6 -/

/-- C6 counterexample: the bitrate code 0 does not fail with
`InvalidBitrate` as the claim states; `get_bitrate` only rejects codes
`>= 15`, and code 0 succeeds with the table value 0. -/
theorem C6_counterexample :
    get_bitrate .Mpeg1 .Layer1 0 (0, Duration.zero) = .ok 0 := by rfl

/-- C6 amended: the bitrate lookup fails with `InvalidBitrate` carrying
the offending code exactly when the code is at least 15 (in particular
for the reserved code 15), and for every code from 0 to 14 with a
defined layer it succeeds with the table value multiplied by 1000
(which is 0 for the reserved code 0, not an error). -/
theorem C6_theorem (v : Version) (l : Layer) (c : Nat) (ctx : Nat × Duration) :
    (15 ≤ c → get_bitrate v l c ctx = .error ⟨.InvalidBitrate c, ctx.1, ctx.2⟩) ∧
    (c < 15 → l ≠ .NotDefined → get_bitrate v l c ctx =
      .ok (1000 * (((BIT_RATES.getD v.idx []).getD l.idx []).getD c 0))) := by
  constructor
  · intro h
    unfold get_bitrate
    rw [if_pos h]
  · intro h hl
    unfold get_bitrate
    rw [if_neg (by omega), if_neg hl]

/-- Witness for C6: code 15 fails with `InvalidBitrate 15`, and code 9
for MPEG-1 Layer III succeeds with 128000 bps. -/
theorem C6_witness :
    get_bitrate .Mpeg1 .Layer3 15 (7, Duration.zero) =
      .error ⟨.InvalidBitrate 15, 7, Duration.zero⟩ ∧
    get_bitrate .Mpeg1 .Layer3 9 (7, Duration.zero) = .ok 128000 :=
  ⟨(C6_theorem .Mpeg1 .Layer3 15 (7, Duration.zero)).1 (by decide),
   (C6_theorem .Mpeg1 .Layer3 9 (7, Duration.zero)).2 (by decide) (by decide)⟩

/-! ### Claim C8 -/

/-- C8 counterexample: on a frame with the reserved bitrate code 15, the
scanner has pulled 25 bytes (4-byte header, 9 side-information bytes and
the 12-byte peek block) when it produces `InvalidBitrate`, but the
error's offset is 4: the offset does not equal the bytes pulled. -/
theorem C8_counterexample :
    from_read_c ([255, 231, 240, 192] ++ List.replicate 21 0) =
      (.error ⟨.InvalidBitrate 15, 4, Duration.zero⟩, 25) ∧ (4 : Nat) ≠ 25 :=
  ⟨by rfl, by decide⟩

/-- C8 amended: (a) for every input on which `from_read` fails, the
error's offset field never exceeds the total number of bytes pulled
from the source at the moment the error is produced; it can be strictly
smaller (bitrate-lookup failures, `UnexpectedFrame` and the APEv2
failures report an earlier bookmarked position, before
side-information/peek or tag-header bytes already pulled); (b) the
bytes-consumed counter strictly increases over the scan: every
iteration that continues the loop advances `bytes_read` by exactly the
number of bytes it pulled, and that number is positive. -/
theorem C8_theorem :
    (∀ (input : List Nat) (e : MP3DurationError) (c : Nat),
      from_read_c input = (.error e, c) → e.offset ≤ c) ∧
    (∀ (input : List Nat) (br : Nat) (d : Duration) (rest : List Nat) (br' : Nat)
      (d' : Duration) (c : Nat),
      step input br d = .next rest br' d' c → br' = br + c ∧ 0 < c) := by
  constructor
  · intro input e c h
    have := loop_fail_offset (input.length + 1) input 0 Duration.zero e c h
    omega
  · intro input br d rest br' d' c h
    have hinv := step_inv input br d
    rw [h] at hinv
    simp only [stepOffOk] at hinv
    omega

set_option maxRecDepth 4000 in
/-- Witness for C8: (a) the offset bound applied to the concrete
unrecognized-header stream `[1, 2, 3, 4]`, which fails with
`UnexpectedFrame` at offset 0 after pulling 4 bytes; (b) the
strict-increase clause applied to the scan iteration that consumes the
whole concrete 139-byte CBR frame. -/
theorem C8_witness :
    (MP3DurationError.mk (.UnexpectedFrame 16909060) 0 Duration.zero).offset ≤ 4 ∧
    ((139 : Nat) = 0 + 139 ∧ (0 : Nat) < 139) :=
  ⟨C8_theorem.1 [1, 2, 3, 4] ⟨.UnexpectedFrame 16909060, 0, Duration.zero⟩ 4 (by rfl),
   C8_theorem.2 (FrameDesc.bytes cbrDesc) 0 Duration.zero [] 139 ⟨0, 34829931⟩ 139
     (by rfl)⟩

/-! ### Claim C9 -/

/-- An independent sequential cursor over an immutable byte sequence:
reading starts at `pos` and only moves forward.  Two readers with the
same remaining bytes are independent cursors over the same data. -/
structure Reader where
  data : List Nat
  pos : Nat

/-- The bytes a reader will deliver. -/
def Reader.bytesLeft (r : Reader) : List Nat := r.data.drop r.pos

/-- Running the scanner from a reader. -/
def from_read_reader (r : Reader) : Except MP3DurationError Duration :=
  from_read r.bytesLeft

/-- C9: scanning the same immutable byte sequence through two
independent readers yields identical results — the scan is a pure
function of the byte sequence, with no mutable global state in the
embedding. -/
theorem C9_theorem (r1 r2 : Reader) (h : r1.bytesLeft = r2.bytesLeft) :
    from_read_reader r1 = from_read_reader r2 := by
  unfold from_read_reader
  rw [h]

/-- Witness for C9: two distinct readers exposing the same byte
sequence `[255]` produce the same scan result. -/
theorem C9_witness :
    from_read_reader ⟨[255], 0⟩ = from_read_reader ⟨[7, 255], 1⟩ :=
  C9_theorem ⟨[255], 0⟩ ⟨[7, 255], 1⟩ (by rfl)

/-! ### Claim C10 -/

/-- C10: on the Xing/Info fast path the bitrate code of the carrying
frame is never validated: a frame whose peek block is a Xing/Info header
with the frame-count bit set makes `from_read` return a duration
successfully even when the header's 4-bit bitrate code is the reserved
value 0 or 15, because the bitrate lookup only runs in the non-Xing
branch. -/
theorem C10_theorem (f : FrameDesc) (tail : List Nat) (hf : f.ValidXing)
    (hbr : (f.hdr >>> 12) &&& 15 = 0 ∨ (f.hdr >>> 12) &&& 15 = 15) :
    from_read (f.b0 :: f.b1 :: f.b2 :: f.b3 :: (f.side ++ (f.peek ++ tail))) =
      .ok f.xingDur :=
  from_read_xing f hf tail

/-- Witness for C10: the concrete Xing frame with reserved bitrate
code 15 still yields a duration. -/
theorem C10_witness :
    from_read (xingBr15Desc.b0 :: xingBr15Desc.b1 :: xingBr15Desc.b2 :: xingBr15Desc.b3 ::
      (xingBr15Desc.side ++ (xingBr15Desc.peek ++ []))) = .ok xingBr15Desc.xingDur :=
  C10_theorem xingBr15Desc [] (by decide) (Or.inr (by decide))

/-! ### Claim C1 -/

set_option maxRecDepth 4000 in
/-- C1 counterexample: two identical valid CBR frames (S = 384
samples/frame, R = 11025 Hz, no Xing header) yield the duration
`2 * ⌊384e9/11025⌋ = 69659862` nanoseconds, whereas `N*S/R` seconds
split exactly into seconds plus nanosecond remainder is
`⌊2*384e9/11025⌋ = 69659863` nanoseconds: the per-frame truncation
loses nanoseconds, so the claimed exact total does not hold. -/
theorem C1_counterexample :
    from_read (([255, 231, 16, 192] ++ List.replicate 135 0) ++
        ([255, 231, 16, 192] ++ List.replicate 135 0)) = .ok ⟨0, 69659862⟩ ∧
    durOfNanos (2 * 384 * 1000000000 / 11025) = ⟨0, 69659863⟩ ∧
    (Duration.mk 0 69659862) ≠ ⟨0, 69659863⟩ :=
  ⟨by rfl, by rfl, by decide⟩

/-- C1 amended: for every valid constant-bitrate stream of N frames,
each with sampling rate R and S samples per frame and no Xing/Info
header, `from_read` returns `Ok` with total duration equal to
`N * ⌊S * 10^9 / R⌋` nanoseconds (each frame's duration is truncated to
whole nanoseconds before summation), expressed as integer seconds plus
an integer nanosecond remainder; this can fall short of the exact
`N*S/R` seconds by up to `N-1` nanoseconds. -/
theorem C1_theorem (fs : List FrameDesc) (R S : Nat) (hv : ∀ f ∈ fs, f.ValidCBR)
    (hR : ∀ f ∈ fs, f.samplingRate = R) (hS : ∀ f ∈ fs, f.numSamples = S) :
    from_read (Block.concat (fs.map Block.audio)) =
      .ok (durOfNanos (fs.length * (S * 1000000000 / R))) := by
  rw [from_read_blocks (fs.map Block.audio) (by
    intro b hb
    obtain ⟨f, hf, rfl⟩ := List.mem_map.mp hb
    exact hv f hf)]
  rw [nanos_audio fs R S hv hR hS]

/-- Witness for C1: the amended formula applied to two copies of the
concrete 139-byte CBR frame. -/
theorem C1_witness :
    from_read (Block.concat ([cbrDesc, cbrDesc].map Block.audio)) =
      .ok (durOfNanos ([cbrDesc, cbrDesc].length * (384 * 1000000000 / 11025))) :=
  C1_theorem [cbrDesc, cbrDesc] 11025 384 (by decide) (by decide) (by decide)

/-! ### Claim C2 -/

/-- C2 counterexample: a Xing frame with frame count `0xFFFFFFFF`
(384 samples/frame, 11025 Hz) makes the `u64` product
`1_000_000_000 * frame_count * samples_per_frame` wrap, and `from_read`
returns `Ok ⟨149593421, 614809628⟩` instead of the exact split
`⟨149593418, 710204081⟩` of `frame_count * samples_per_frame / rate`
seconds: the claimed exact nanosecond remainder fails. -/
theorem C2_counterexample :
    from_read ([255, 231, 16, 192] ++ List.replicate 9 0 ++
        [88, 105, 110, 103, 0, 0, 0, 1, 255, 255, 255, 255]) =
      .ok ⟨149593421, 614809628⟩ ∧
    durOfNanos (4294967295 * 384 * 1000000000 / 11025) = ⟨149593418, 710204081⟩ ∧
    (Duration.mk 149593421 614809628) ≠ ⟨149593418, 710204081⟩ :=
  ⟨by rfl, by rfl, by decide⟩

/-- C2 amended: for every audio frame whose 12-byte post-side-information
block starts with "Xing" or "Info" and has bit 0 of its 8th byte set,
provided `10^9 * frame_count * samples_per_frame` does not overflow a
`u64`, `from_read` returns immediately — whatever bytes follow the peek
block are never examined — a duration equal to
`frame_count * samples_per_frame / sampling_rate` seconds split exactly
into integer seconds and a nanosecond remainder; the result depends only
on `frame_count`, `samples_per_frame` and `sampling_rate`. -/
theorem C2_theorem (f : FrameDesc) (tail : List Nat) (hf : f.ValidXing)
    (hov : BILLION * (f.numFrames * f.numSamples) < U64) :
    from_read (f.b0 :: f.b1 :: f.b2 :: f.b3 :: (f.side ++ (f.peek ++ tail))) =
      .ok (durOfNanos (f.numFrames * f.numSamples * BILLION / f.samplingRate)) := by
  rw [from_read_xing f hf tail, xingDur_exact f hf.1 hov]

/-- Witness for C2: the amended exact-split formula applied to the
concrete Xing frame with frame count 1, followed by unread trailing
bytes. -/
theorem C2_witness :
    from_read (xingDesc.b0 :: xingDesc.b1 :: xingDesc.b2 :: xingDesc.b3 ::
        (xingDesc.side ++ (xingDesc.peek ++ [7, 7, 7]))) =
      .ok (durOfNanos (xingDesc.numFrames * xingDesc.numSamples * BILLION /
        xingDesc.samplingRate)) :=
  C2_theorem xingDesc [7, 7, 7] (by decide) (by decide)

/-! ### Claim C4 -/

/-- C4: (a) every stream whose bytes end exactly at a top-level block
boundary — a concatenation of complete audio frames, ID3v2, ID3v1 and
APEv2 tags — succeeds with the accumulated duration; (b) a stream of
complete blocks followed by an audio frame truncated inside its body
fails with `UnexpectedEOF`, and the error's `at_duration` equals the
duration accumulated from the complete frames before the truncated one,
never including any part of the partial frame. -/
theorem C4_theorem :
    (∀ bs : List Block, (∀ b ∈ bs, b.Valid) →
      from_read (Block.concat bs) = .ok (durOfNanos (Block.nanos bs))) ∧
    (∀ (bs : List Block) (f : FrameDesc) (tail : List Nat),
      (∀ b ∈ bs, b.Valid) → f.ValidHeader →
      ¬((xing_magic f.peek ∨ info_magic f.peek) ∧ xing_frames_flag f.peek) →
      f.encoded_bitrate < 15 →
      4 + f.sideLen + 12 ≤ f.frameLength →
      tail.length < f.frameLength - (4 + f.sideLen + 12) →
      from_read (Block.concat bs ++
          (f.b0 :: f.b1 :: f.b2 :: f.b3 :: (f.side ++ (f.peek ++ tail)))) =
        .error ⟨.UnexpectedEOF, Block.sizes bs + 4 + f.sideLen + 12,
          durOfNanos (Block.nanos bs)⟩) := by
  constructor
  · exact from_read_blocks
  · intro bs f tail hv hh hnx hebr hlen htail
    unfold from_read
    rw [from_read_c_blocks_trunc bs hv f hh hnx hebr hlen htail]

set_option maxRecDepth 8000 in
/-- Witness for C4: (a) an ID3v1 tag followed by a complete CBR frame
ends at a block boundary and succeeds with that frame's duration; (b)
one complete CBR frame followed by a frame cut off right after its peek
block fails with `UnexpectedEOF`, reporting exactly the first frame's
duration. -/
theorem C4_witness :
    from_read (Block.concat [Block.id3v1 0 (List.replicate 124 7), Block.audio cbrDesc]) =
      .ok (durOfNanos (Block.nanos [Block.id3v1 0 (List.replicate 124 7),
        Block.audio cbrDesc])) ∧
    from_read (Block.concat [Block.audio cbrDesc] ++
        (cbrDesc.b0 :: cbrDesc.b1 :: cbrDesc.b2 :: cbrDesc.b3 ::
          (cbrDesc.side ++ (cbrDesc.peek ++ [])))) =
      .error ⟨.UnexpectedEOF, Block.sizes [Block.audio cbrDesc] + 4 + cbrDesc.sideLen + 12,
        durOfNanos (Block.nanos [Block.audio cbrDesc])⟩ :=
  ⟨C4_theorem.1 [Block.id3v1 0 (List.replicate 124 7), Block.audio cbrDesc] (by decide),
   C4_theorem.2 [Block.audio cbrDesc] cbrDesc [] (by decide) (by decide) (by decide)
     (by decide) (by decide) (by decide)⟩

/-! ### Claim C5 -/

/-- C5: (a) an audio frame on the per-frame (non-Xing) path whose
computed `frame_length` is smaller than the 4-byte header plus
side-information plus the 12-byte peek already consumed makes
`from_read` fail with `MPEGFrameTooShort`; (b) otherwise the iteration
consumes the header, side information and peek plus exactly the
non-negative difference `frame_length - (4 + side + 12)` (`checked_sub`
never produces a negative skip), continuing right after the frame. -/
theorem C5_theorem :
    (∀ (f : FrameDesc) (tail : List Nat), f.ValidHeader →
      ¬((xing_magic f.peek ∨ info_magic f.peek) ∧ xing_frames_flag f.peek) →
      f.encoded_bitrate < 15 →
      f.frameLength < 4 + f.sideLen + 12 →
      from_read (f.b0 :: f.b1 :: f.b2 :: f.b3 :: (f.side ++ (f.peek ++ tail))) =
        .error ⟨.MPEGFrameTooShort, 4 + f.sideLen + 12, Duration.zero⟩) ∧
    (∀ (f : FrameDesc) (rest : List Nat) (br : Nat) (d : Duration), f.ValidCBR →
      step (FrameDesc.bytes f ++ rest) br d =
        .next rest (br + 4 + (f.frameLength - 4)) (d + Duration.new 0 (f.frameDur % U32))
          (4 + f.sideLen + 12 + (f.frameLength - (4 + f.sideLen + 12)))) := by
  constructor
  · intro f tail hh hnx hebr hshort
    exact from_read_frame_too_short f hh hnx hebr hshort tail
  · intro f rest br d hf
    have hshape : FrameDesc.bytes f ++ rest =
        f.b0 :: f.b1 :: f.b2 :: f.b3 :: (f.side ++ (f.peek ++ (f.body ++ rest))) := by
      simp [FrameDesc.bytes]
    rw [hshape, step_cons hf.1.1, stepCore_cbr_raw f hf rest (br + 4) d 0]

/-- Witness for C5: (a) the concrete free-format frame with bitrate
code 0 computes `frame_length = 0 < 25` and fails with
`MPEGFrameTooShort`; (b) the concrete 139-byte CBR frame skips exactly
`139 - 25 = 114` bytes and continues. -/
theorem C5_witness :
    from_read (shortDesc.b0 :: shortDesc.b1 :: shortDesc.b2 :: shortDesc.b3 ::
        (shortDesc.side ++ (shortDesc.peek ++ []))) =
      .error ⟨.MPEGFrameTooShort, 4 + shortDesc.sideLen + 12, Duration.zero⟩ ∧
    step (FrameDesc.bytes cbrDesc ++ [9, 9]) 0 Duration.zero =
      .next [9, 9] (0 + 4 + (cbrDesc.frameLength - 4))
        (Duration.zero + Duration.new 0 (cbrDesc.frameDur % U32))
        (4 + cbrDesc.sideLen + 12 + (cbrDesc.frameLength - (4 + cbrDesc.sideLen + 12))) :=
  ⟨C5_theorem.1 shortDesc [] (by decide) (by decide) (by decide) (by decide),
   C5_theorem.2 cbrDesc [9, 9] 0 Duration.zero (by decide)⟩

/-! ### Claim C7 -/

/-- C7 counterexample: the code does not ignore the top bit of the size
bytes: for size bytes `[0, 0, 0, 0x80]` the code's decode yields 128,
whereas the claimed synchsafe decoding (each top bit ignored) yields 0. -/
theorem C7_counterexample :
    id3v2_tag_size 0 0 0 128 = 128 ∧
    ((0 &&& 127) <<< 21) ||| ((0 &&& 127) <<< 14) ||| ((0 &&& 127) <<< 7) |||
      (128 &&& 127) = 0 ∧ (128 : Nat) ≠ 0 :=
  ⟨by rfl, by rfl, by decide⟩

set_option maxRecDepth 8000 in
/-- C7 amended: the tag size is decoded from the four size bytes as the
raw shift-and-or `b3<<21 | b4<<14 | b5<<7 | b6` with no masking; when
all four size bytes are valid synchsafe bytes (below 0x80), this agrees
with the top-bit-ignored decoding, and in particular `[0,0,2,1]` decodes
to 257 — independent of the footer flag, as two full scans of concrete
one-tag streams (footer flag clear with 257 payload bytes, footer flag
set with 267 payload bytes), both ending exactly at the tag boundary,
demonstrate. -/
theorem C7_theorem :
    (∀ b3 b4 b5 b6 : Nat, b3 < 128 → b4 < 128 → b5 < 128 → b6 < 128 →
      id3v2_tag_size b3 b4 b5 b6 =
        ((b3 &&& 127) <<< 21) ||| ((b4 &&& 127) <<< 14) |||
          ((b5 &&& 127) <<< 7) ||| (b6 &&& 127)) ∧
    id3v2_tag_size 0 0 2 1 = 257 ∧
    from_read ([73, 68, 51, 4, 0, 0, 0, 0, 2, 1] ++ List.replicate 257 7) =
      .ok Duration.zero ∧
    from_read ([73, 68, 51, 4, 0, 16, 0, 0, 2, 1] ++ List.replicate 267 7) =
      .ok Duration.zero := by
  have hmask : ∀ a : Nat, a < 128 → a &&& 127 = a := by
    intro a ha
    have h2 := Nat.and_pow_two_sub_one_eq_mod a 7
    norm_num at h2
    omega
  refine ⟨?_, by rfl, ?_, ?_⟩
  · intro b3 b4 b5 b6 h3 h4 h5 h6
    rw [hmask b3 h3, hmask b4 h4, hmask b5 h5, hmask b6 h6]
    unfold id3v2_tag_size
    rw [Nat.lor_comm b6 (b5 <<< 7), Nat.lor_comm _ (b4 <<< 14), Nat.lor_comm _ (b3 <<< 21)]
    rw [Nat.lor_assoc, Nat.lor_assoc, Nat.lor_comm (b5 <<< 7) b6,
      Nat.lor_comm (b4 <<< 14) _]
  · exact (by rfl)
  · exact (by rfl)

/-- Witness for C7: the synchsafe-agreement clause applied at the
concrete size bytes `[0, 0, 2, 1]`. -/
theorem C7_witness :
    id3v2_tag_size 0 0 2 1 =
      ((0 &&& 127) <<< 21) ||| ((0 &&& 127) <<< 14) ||| ((2 &&& 127) <<< 7) |||
        (1 &&& 127) :=
  C7_theorem.1 0 0 2 1 (by decide) (by decide) (by decide) (by decide)
